import Mathlib

/-
  Shallow embedding of the marketplace/auth core of the secure_coding repo:
  the mock in-memory store (users/products/reports/chat messages) and the
  mutation procedures defined in the React components' `api` objects
  (AuthContext.tsx, ProductDetail.tsx, Products.tsx, AdminDashboard.tsx,
  and the user-profile module).  Timestamps are epoch milliseconds (Int),
  balances and prices are Int.  JavaScript string truthiness is modelled
  explicitly (`strTruthy`); DOMPurify.sanitize is treated as the identity
  on plain text (it is an opaque capability in the design).
-/

/-- 24 hours in milliseconds, as used by the source for ban and sweep math. -/
def dayMs : Int := 24 * 60 * 60 * 1000

/-- JavaScript truthiness of an optional string field: `undefined` and the
empty string are falsy, every other string is truthy. -/
def strTruthy : Option String → Bool
  | none => false
  | some s => !(s == "")

/-- A row of `users.json` (src/types: interface User). The optional
`isAdmin` flag is modelled as a Bool with `false` for "absent", matching
how the source only ever reads it with JS truthiness. -/
structure User where
  username : String
  password : String
  bio : Option String
  isAdmin : Bool
  canLogin : Bool
  banExpiry : Option Int
  balance : Int
deriving DecidableEq

/-- A user record with the password field stripped, as returned by the
mock APIs (`const { password: _, ...userWithoutPassword } = user`). -/
structure PublicUser where
  username : String
  bio : Option String
  isAdmin : Bool
  canLogin : Bool
  banExpiry : Option Int
  balance : Int
deriving DecidableEq

/-- Destructuring `const { password: _, ...userWithoutPassword } = u`. -/
def stripPassword (u : User) : PublicUser :=
  { username := u.username, bio := u.bio, isAdmin := u.isAdmin
    canLogin := u.canLogin, banExpiry := u.banExpiry, balance := u.balance }

/-- A row of `products.json` (src/types: interface Product). -/
structure Product where
  id : String
  title : String
  description : String
  price : Int
  imageUrl : String
  author : String
  createdAt : Int
  purchasedBy : Option String
  purchasedAt : Option Int
  isDeleted : Bool
deriving DecidableEq

/-- Report `type` discriminator: 'user' | 'post' | 'chat' | 'product'. -/
inductive RType where
  | user
  | post
  | chat
  | product
deriving DecidableEq

/-- A row of `reports.json` (src/types: interface Report); `rType` embeds
the source's `type` field. -/
structure Report where
  id : String
  rType : RType
  contentId : Option String
  reportedUser : String
  reason : String
  reportedBy : String
  createdAt : Int
deriving DecidableEq

/-- A row of `chat.json` (src/types: interface ChatMessage), reduced to the
fields the moderation code touches. -/
structure ChatMessage where
  id : String
  content : String
  author : String
  createdAt : Int
deriving DecidableEq

/-- The shared in-memory store: the module-level JSON tables that every
mock `api` object mutates. -/
structure Store where
  users : List User
  products : List Product
  reports : List Report
  messages : List ChatMessage
deriving DecidableEq

deriving instance DecidableEq for Except

/-- `Array.prototype.findIndex` paired with the element it found, i.e. the
JS idiom `const i = xs.findIndex(p); const x = xs[i]` (and `xs.find(p)`,
which returns the same first match). -/
def findIdxElem? (p : α → Bool) : List α → Option (Nat × α)
  | [] => none
  | a :: as =>
    if p a then some (0, a)
    else (findIdxElem? p as).map (fun ia => (ia.1 + 1, ia.2))

/-- Error kinds of `api.login` (AuthContext.tsx): a generic credential
failure, or the ban message carrying the computed days remaining. -/
inductive LoginError where
  | invalidCredentials
  | banned (daysRemaining : Int)
deriving DecidableEq

/-- `Math.ceil((banExpiry - now) / (1000*60*60*24))` for a positive
millisecond difference `d`. -/
def ceilDays (d : Int) : Int := (d + dayMs - 1) / dayMs

/-- AuthContext.tsx `api.login`: exact-username lookup, plaintext password
comparison, lazy ban-expiry evaluation (an expired or absent `banExpiry`
on a `canLogin = false` user is cleared in place), and on success the
password-stripped record plus the caller-supplied fresh token.  The second
component is the user table after the call. -/
def login (users : List User) (username password token : String) (now : Int) :
    Except LoginError (PublicUser × String) × List User :=
  match findIdxElem? (fun u => u.username == username) users with
  | none => (.error .invalidCredentials, users)
  | some (idx, foundUser) =>
    if !(foundUser.password == password) then (.error .invalidCredentials, users)
    else if foundUser.canLogin then (.ok (stripPassword foundUser, token), users)
    else
      match foundUser.banExpiry with
      | some t =>
        if t > now then (.error (.banned (ceilDays (t - now))), users)
        else
          let cleared := { foundUser with canLogin := true, banExpiry := none }
          (.ok (stripPassword cleared, token), users.set idx cleared)
      | none =>
        let cleared := { foundUser with canLogin := true, banExpiry := none }
        (.ok (stripPassword cleared, token), users.set idx cleared)

/-- Error kinds of `api.banUser` (user-profile module). -/
inductive BanError where
  | forbidden
  | outOfRange
  | notFound
deriving DecidableEq

/-- `api.banUser(username, days, adminUsername)` from the user-profile
module: admin lookup and `!admin?.isAdmin` check, range check
`days <= 0 || days > 365`, target lookup, then
`canLogin = false, banExpiry = now + days` days. -/
def banUser (users : List User) (username : String) (days : Int)
    (adminUsername : String) (now : Int) : Except BanError User × List User :=
  match findIdxElem? (fun u => u.username == adminUsername) users with
  | none => (.error .forbidden, users)
  | some (_, adminUser) =>
    if !adminUser.isAdmin then (.error .forbidden, users)
    else if days ≤ 0 ∨ days > 365 then (.error .outOfRange, users)
    else
      match findIdxElem? (fun u => u.username == username) users with
      | none => (.error .notFound, users)
      | some (userIndex, target) =>
        let bannedUser :=
          { target with canLogin := false, banExpiry := some (now + days * dayMs) }
        (.ok bannedUser, users.set userIndex bannedUser)

/-- `String.prototype.trim()`: strip whitespace from both ends. -/
def jsTrim (s : String) : String :=
  ⟨((s.data.dropWhile Char.isWhitespace).reverse.dropWhile Char.isWhitespace).reverse⟩

/-- Error kinds of the report paths. -/
inductive ReportError where
  | tooShort
  | emptyReason
  | selfReport
  | notFound
deriving DecidableEq

/-- `api.reportUser(reportData)` from the user-profile module: rejects a
falsy or under-5-chars-after-trim reason, else appends one user-type
report row with the raw reason. -/
def reportUser (s : Store) (targetUsername reason reporterUsername : String)
    (newId : String) (now : Int) : Except ReportError Unit × Store :=
  if reason == "" ∨ (jsTrim reason).length < 5 then (.error .tooShort, s)
  else
    (.ok (), { s with reports := s.reports ++
      [{ id := newId, rType := .user, contentId := none,
         reportedUser := targetUsername, reason := reason,
         reportedBy := reporterUsername, createdAt := now }] })

/-- `api.reportProduct(productId, reason, username)` (ProductDetail.tsx):
requires the product to exist, then appends one product-type report
against the product's author; no length check of its own. -/
def reportProduct (s : Store) (productId reason username newId : String)
    (now : Int) : Except ReportError Unit × Store :=
  match findIdxElem? (fun p => p.id == productId) s.products with
  | none => (.error .notFound, s)
  | some (_, product) =>
    (.ok (), { s with reports := s.reports ++
      [{ id := newId, rType := .product, contentId := some productId,
         reportedUser := product.author, reason := reason,
         reportedBy := username, createdAt := now }] })

/-- `handleReport` (ProductDetail.tsx) composed with `api.reportProduct`:
the component validates against the loaded product (no self-report, a
non-blank reason, and `reportReason.length >= 5` on the UNtrimmed text),
then submits the trimmed, sanitized reason. -/
def handleReportProduct (s : Store) (productId reportReason username newId : String)
    (now : Int) : Except ReportError Unit × Store :=
  match findIdxElem? (fun p => p.id == productId) s.products with
  | none => (.error .notFound, s)
  | some (_, product) =>
    if product.author == username then (.error .selfReport, s)
    else if jsTrim reportReason == "" then (.error .emptyReason, s)
    else if reportReason.length < 5 then (.error .tooShort, s)
    else reportProduct s productId (jsTrim reportReason) username newId now

/-- Error kinds of `api.purchaseProduct` (ProductDetail.tsx). -/
inductive PurchaseError where
  | notFound
  | alreadySold
  | buyerNotFound
  | insufficientBalance
deriving DecidableEq

/-- The two in-place balance writes of `api.purchaseProduct`: first the
buyer debit at `buyerIndex`, then the seller credit at the first index
matching the product's `author` - skipped silently (`sellerIndex === -1`)
when no such user exists. -/
def purchaseUsers (users : List User) (buyerIndex : Nat) (buyer : User)
    (price : Int) (author : String) : List User :=
  let users1 := users.set buyerIndex { buyer with balance := buyer.balance - price }
  match findIdxElem? (fun u => u.username == author) users1 with
  | some (sellerIndex, seller) =>
    users1.set sellerIndex { seller with balance := seller.balance + price }
  | none => users1

/-- `usersData.users[buyerIndex].balance` re-read after both writes (the
out-of-bounds branch is unreachable). -/
def purchasedBalance (users2 : List User) (buyerIndex : Nat) : Int :=
  match users2[buyerIndex]? with
  | some b => b.balance
  | none => 0

/-- `api.purchaseProduct(productId, username)` (ProductDetail.tsx):
existence / already-sold / buyer / balance checks, then the in-place
debit of the buyer, the silently-skipped-if-absent credit of the first
user matching the product's `author`, the purchase stamp on the product,
and the buyer's balance re-read from the table for the result. -/
def purchaseProduct (s : Store) (productId username : String) (now : Int) :
    Except PurchaseError (Product × Int) × Store :=
  match findIdxElem? (fun p => p.id == productId) s.products with
  | none => (.error .notFound, s)
  | some (productIndex, product) =>
    if strTruthy product.purchasedBy then (.error .alreadySold, s)
    else
      match findIdxElem? (fun u => u.username == username) s.users with
      | none => (.error .buyerNotFound, s)
      | some (buyerIndex, buyer) =>
        if buyer.balance < product.price then (.error .insufficientBalance, s)
        else
          let users2 := purchaseUsers s.users buyerIndex buyer product.price product.author
          let updatedProduct :=
            { product with purchasedBy := some username, purchasedAt := some now }
          (.ok (updatedProduct, purchasedBalance users2 buyerIndex),
           { s with users := users2,
                    products := s.products.set productIndex updatedProduct })

/-- The patch object built by `handleUpdate` (ProductDetail.tsx): the four
listing fields, always all present. -/
structure ProductPatch where
  title : String
  description : String
  price : Int
  imageUrl : String
deriving DecidableEq

/-- The spread `{ ...product, ...updatedData }` for the patch above. -/
def applyPatch (p : Product) (d : ProductPatch) : Product :=
  { p with title := d.title, description := d.description,
           price := d.price, imageUrl := d.imageUrl }

/-- Error kinds of `api.updateProduct` / `api.deleteProduct`. -/
inductive ProdError where
  | notFound
  | forbidden
deriving DecidableEq

/-- `usersData.users.find(u => u.username === username)?.isAdmin` with JS
truthiness for the optional chain. -/
def isAdminUser (users : List User) (username : String) : Bool :=
  match findIdxElem? (fun u => u.username == username) users with
  | some (_, u) => u.isAdmin
  | none => false

/-- `api.updateProduct(productId, updatedData, username)`
(ProductDetail.tsx): owner-or-admin check, then the field merge written
back in place. -/
def updateProduct (s : Store) (productId : String) (updatedData : ProductPatch)
    (username : String) : Except ProdError Product × Store :=
  match findIdxElem? (fun p => p.id == productId) s.products with
  | none => (.error .notFound, s)
  | some (productIndex, product) =>
    if !(product.author == username) && !isAdminUser s.users username then
      (.error .forbidden, s)
    else
      let updatedProduct := applyPatch product updatedData
      (.ok updatedProduct,
       { s with products := s.products.set productIndex updatedProduct })

/-- `api.deleteProduct(productId, username)` (ProductDetail.tsx): same
authorization rule, then the soft-delete flag instead of removal. -/
def deleteProduct (s : Store) (productId username : String) :
    Except ProdError Product × Store :=
  match findIdxElem? (fun p => p.id == productId) s.products with
  | none => (.error .notFound, s)
  | some (productIndex, product) =>
    if !(product.author == username) && !isAdminUser s.users username then
      (.error .forbidden, s)
    else
      let updatedProduct := { product with isDeleted := true }
      (.ok updatedProduct,
       { s with products := s.products.set productIndex updatedProduct })

/-- The `productData` object built by the listing form (Products.tsx). -/
structure ProductData where
  title : String
  description : String
  price : Int
  imageUrl : String
  author : String
deriving DecidableEq

/-- `api.createProduct(productData)` (Products.tsx): pushes a fresh row
with `isDeleted = false` and no purchase fields. -/
def createProduct (s : Store) (productData : ProductData) (newId : String)
    (now : Int) : Product × Store :=
  let newProduct : Product :=
    { id := newId, title := productData.title,
      description := productData.description, price := productData.price,
      imageUrl := productData.imageUrl, author := productData.author,
      createdAt := now, purchasedBy := none, purchasedAt := none,
      isDeleted := false }
  (newProduct, { s with products := s.products ++ [newProduct] })

/-- The per-product expiry test of `api.cleanupPurchasedProducts`:
`purchasedAt` present, `now > purchasedAt + 24h`, not yet deleted. -/
def expireCond (now : Int) (p : Product) : Bool :=
  match p.purchasedAt with
  | some t => decide (now > t + dayMs) && !p.isDeleted
  | none => false

/-- `api.cleanupPurchasedProducts()` (ProductDetail.tsx): maps over the
product table flipping `isDeleted` on expired sales; the Bool is the
`updated` flag the source accumulates. -/
def cleanupPurchasedProducts (s : Store) (now : Int) : Store × Bool :=
  let products' := s.products.map
    (fun p => if expireCond now p then { p with isDeleted := true } else p)
  ({ s with products := products' }, s.products.any (expireCond now))

/-- `handleBanUser` (AdminDashboard.tsx): behind `verifyAdminAndExecute`,
sets the ban fields on the target if it exists (silently skipping
otherwise) and removes every report whose `reportedUser` is the target. -/
def handleBanUser (s : Store) (actor : Option PublicUser) (username : String)
    (banDuration : Int) (now : Int) : Store :=
  match actor with
  | none => s
  | some u =>
    if u.isAdmin then
      let users' :=
        match findIdxElem? (fun x => x.username == username) s.users with
        | some (userIndex, target) =>
          s.users.set userIndex
            { target with canLogin := false,
                          banExpiry := some (now + banDuration * dayMs) }
        | none => s.users
      { s with users := users',
               reports := s.reports.filter (fun r => !(r.reportedUser == username)) }
    else s

/-- `handleDeleteContent` (AdminDashboard.tsx): behind the admin check,
deletes the referenced chat message (splice) or soft-deletes the
referenced product, bailing out (reports untouched) when the content is
missing; then removes the single acted-on report. -/
def handleDeleteContent (s : Store) (actor : Option PublicUser) (report : Report) :
    Store :=
  match actor with
  | none => s
  | some u =>
    if u.isAdmin then
      match report.rType with
      | .chat =>
        match report.contentId with
        | some cid =>
          match findIdxElem? (fun m => m.id == cid) s.messages with
          | some (messageIndex, _) =>
            { s with messages := s.messages.eraseIdx messageIndex,
                     reports := s.reports.filter (fun r => !(r.id == report.id)) }
          | none => s
        | none => s
      | .product =>
        match report.contentId with
        | some cid =>
          match findIdxElem? (fun p => p.id == cid) s.products with
          | some (productIndex, p) =>
            { s with products :=
                       s.products.set productIndex { p with isDeleted := true },
                     reports := s.reports.filter (fun r => !(r.id == report.id)) }
          | none => s
        | none => s
      | _ => { s with reports := s.reports.filter (fun r => !(r.id == report.id)) }
    else s

/-- The value persisted under the `auth_session` key, as the startup code
can encounter it: absent, unparseable JSON (`JSON.parse` throws inside
`storage.get`, which catches and yields null), or a parsed object whose
fields may individually be absent. -/
inductive StoredSession where
  | missing
  | corrupt
  | record (userId : Option String) (token : Option String) (expiresAt : Option Int)
deriving DecidableEq

/-- `storage.get('auth_session')` (AuthContext.tsx): null for a missing or
unparseable value, the parsed `{userId, token}` fields otherwise. -/
def storageGet : StoredSession → Option (Option String × Option String)
  | .missing => none
  | .corrupt => none
  | .record userId token _ => some (userId, token)

/-- `api.getUser(username)` (AuthContext.tsx): password-stripped record or
a thrown error. -/
def getUser (users : List User) (username : String) : Except Unit PublicUser :=
  match findIdxElem? (fun u => u.username == username) users with
  | none => .error ()
  | some (_, u) => .ok (stripPassword u)

/-- `initializeAuth` (AuthContext.tsx): reads the persisted session, and
only when it is non-null with truthy `token` and `userId` re-fetches the
user; the catch block (reached only by the `getUser` throw) removes the
persisted record.  Returns the resulting current identity and the
persisted value after the call. -/
def initializeAuth (users : List User) (stored : StoredSession) :
    Option PublicUser × StoredSession :=
  match storageGet stored with
  | none => (none, stored)
  | some (userId, token) =>
    if strTruthy token && strTruthy userId then
      match userId with
      | some uid =>
        match getUser users uid with
        | .ok userData => (some userData, stored)
        | .error _ => (none, .missing)
      | none => (none, stored)
    else (none, stored)

/-- The stored balance of the first user with the given name, i.e. what
`usersData.users.find(u => u.username === name)?.balance` reads. -/
def balanceOf (users : List User) (name : String) : Option Int :=
  (findIdxElem? (fun u => u.username == name) users).map (fun iu => iu.2.balance)

/-- The `isDeleted` flag of the first product with the given id. -/
def deletedOf (products : List Product) (pid : String) : Option Bool :=
  (findIdxElem? (fun p => p.id == pid) products).map (fun ip => ip.2.isDeleted)

/- Concrete fixtures used by witnesses and counterexamples. -/

/-- Sample buyer with the fixed starting balance. -/
def alice : User :=
  { username := "alice", password := "pw1", bio := none, isAdmin := false,
    canLogin := true, banExpiry := none, balance := 5000000 }

/-- Sample seller with zero balance. -/
def bob : User :=
  { username := "bob", password := "pw2", bio := none, isAdmin := false,
    canLogin := true, banExpiry := none, balance := 0 }

/-- Sample user whose ban has already expired at time 2 * dayMs. -/
def carol : User :=
  { username := "carol", password := "pw3", bio := none, isAdmin := false,
    canLogin := false, banExpiry := some dayMs, balance := 100 }

/-- Sample administrator. -/
def admUser : User :=
  { username := "adm", password := "pw4", bio := none, isAdmin := true,
    canLogin := true, banExpiry := none, balance := 0 }

/-- The administrator as the current identity (password stripped). -/
def admPub : PublicUser := stripPassword admUser

/-- An unsold product listed by bob. -/
def prodA : Product :=
  { id := "p1", title := "t1", description := "d1", price := 100000,
    imageUrl := "u1", author := "bob", createdAt := 0,
    purchasedBy := none, purchasedAt := none, isDeleted := false }

/-- An unsold product listed by alice (for the self-purchase scenario). -/
def prodSelf : Product :=
  { id := "p2", title := "t2", description := "d2", price := 100,
    imageUrl := "u2", author := "alice", createdAt := 0,
    purchasedBy := none, purchasedAt := none, isDeleted := false }

/-- A product sold at time 0 and not yet swept. -/
def prodSold : Product :=
  { id := "p3", title := "t3", description := "d3", price := 5,
    imageUrl := "u3", author := "bob", createdAt := 0,
    purchasedBy := some "alice", purchasedAt := some 0, isDeleted := false }

/-- A pending user-type report against carol. -/
def repCarol : Report :=
  { id := "r1", rType := .user, contentId := none, reportedUser := "carol",
    reason := "spam account", reportedBy := "alice", createdAt := 0 }

/-- A pending product-type report, also against carol. -/
def repCarolProd : Report :=
  { id := "r2", rType := .product, contentId := some "p9",
    reportedUser := "carol", reason := "fake listing", reportedBy := "bob",
    createdAt := 0 }

/-- A pending report against bob. -/
def repBob : Report :=
  { id := "r3", rType := .user, contentId := none, reportedUser := "bob",
    reason := "rude messages", reportedBy := "alice", createdAt := 0 }

/-- The base sample store. -/
def baseStore : Store :=
  { users := [alice, bob, carol, admUser],
    products := [prodA, prodSelf, prodSold],
    reports := [repCarol, repCarolProd, repBob],
    messages := [] }


theorem findIdxElem?_some {p : α → Bool} :
    ∀ {l : List α} {i : Nat} {a : α},
      findIdxElem? p l = some (i, a) → l[i]? = some a ∧ p a = true
  | [], _, _, h => by simp [findIdxElem?] at h
  | b :: bs, i, a, h => by
    cases hb : p b with
    | true =>
      rw [findIdxElem?, if_pos hb] at h
      obtain ⟨h1, h2⟩ := Prod.mk.injEq .. ▸ Option.some.inj h
      subst h1; subst h2
      exact ⟨by simp, hb⟩
    | false =>
      rw [findIdxElem?, if_neg (by simp [hb])] at h
      cases hf : findIdxElem? p bs with
      | none => rw [hf] at h; simp at h
      | some ja =>
        rw [hf] at h
        simp only [Option.map_some', Option.some.injEq, Prod.mk.injEq] at h
        obtain ⟨hj, hc⟩ := h
        have ih := findIdxElem?_some (l := bs) (i := ja.1) (a := ja.2)
          (by rw [hf])
        subst hj; subst hc
        simpa using ih

theorem findIdxElem?_none {p : α → Bool} :
    ∀ {l : List α}, findIdxElem? p l = none → ∀ a ∈ l, p a = false
  | [], _, a, ha => by simp at ha
  | b :: bs, h, a, ha => by
    cases hb : p b with
    | true => rw [findIdxElem?, if_pos hb] at h; simp at h
    | false =>
      rw [findIdxElem?, if_neg (by simp [hb])] at h
      rcases List.mem_cons.mp ha with rfl | ha'
      · exact hb
      · cases hf : findIdxElem? p bs with
        | none => exact findIdxElem?_none hf a ha'
        | some ja => rw [hf] at h; simp at h

theorem findIdxElem?_set {p : α → Bool} :
    ∀ {l : List α} {i : Nat} {a : α} (b : α),
      l[i]? = some a → p b = p a →
      findIdxElem? p (l.set i b) =
        (findIdxElem? p l).map (fun ja => (ja.1, if ja.1 = i then b else ja.2))
  | [], i, a, b, ha, _ => by simp at ha
  | c :: cs, 0, a, b, ha, hpb => by
    simp only [List.getElem?_cons_zero, Option.some.injEq] at ha
    subst ha
    cases hc : p c with
    | true =>
      have hb : p b = true := hpb.trans hc
      simp [List.set, findIdxElem?, hc, hb]
    | false =>
      have hb : p b = false := hpb.trans hc
      simp only [List.set, findIdxElem?, hb, hc, Bool.false_eq_true, if_false,
        Option.map_map]
      cases hf : findIdxElem? p cs with
      | none => rfl
      | some ja => simp
  | c :: cs, i + 1, a, b, ha, hpb => by
    simp only [List.getElem?_cons_succ] at ha
    cases hc : p c with
    | true => simp [List.set, findIdxElem?, hc]
    | false =>
      have ih := findIdxElem?_set (l := cs) (i := i) (a := a) b ha hpb
      simp only [List.set, findIdxElem?, hc, Bool.false_eq_true, if_false, ih,
        Option.map_map]
      cases hf : findIdxElem? p cs with
      | none => rfl
      | some ja =>
        simp only [Option.map_some', Option.some.injEq, Prod.mk.injEq]
        by_cases hji : ja.1 = i
        · simp [hji]
        · have h1 : ¬ (ja.1 + 1 = i + 1) := by omega
          simp [hji, h1]

theorem findIdxElem?_append_left {p : α → Bool} :
    ∀ {l : List α} {ia : Nat × α} (l' : List α),
      findIdxElem? p l = some ia → findIdxElem? p (l ++ l') = some ia
  | [], _, _, h => by simp [findIdxElem?] at h
  | b :: bs, ia, l', h => by
    cases hb : p b with
    | true =>
      rw [findIdxElem?, if_pos hb] at h
      rw [List.cons_append, findIdxElem?, if_pos hb]
      exact h
    | false =>
      rw [findIdxElem?, if_neg (by simp [hb])] at h
      rw [List.cons_append, findIdxElem?, if_neg (by simp [hb])]
      cases hf : findIdxElem? p bs with
      | none => rw [hf] at h; simp at h
      | some jc =>
        rw [hf] at h
        rw [findIdxElem?_append_left l' hf]
        exact h

theorem findIdxElem?_map {p : α → Bool} {f : α → α}
    (hf : ∀ x, p (f x) = p x) :
    ∀ (l : List α),
      findIdxElem? p (l.map f) = (findIdxElem? p l).map (fun ia => (ia.1, f ia.2))
  | [] => rfl
  | b :: bs => by
    cases hb : p b with
    | true =>
      simp only [List.map_cons, findIdxElem?, hf b, hb, if_true]
      simp
    | false =>
      simp only [List.map_cons, findIdxElem?, hf b, hb, Bool.false_eq_true,
        if_false, findIdxElem?_map hf bs, Option.map_map]
      cases hg : findIdxElem? p bs with
      | none => rfl
      | some ja => simp

theorem set_self_eq : ∀ {l : List α} {i : Nat} {a : α}, l[i]? = some a → l.set i a = l
  | [], _, _, h => by simp at h
  | b :: bs, 0, a, h => by simp at h; simp [h]
  | b :: bs, i + 1, a, h => by
    simp at h
    simp [List.set, set_self_eq h]

theorem getElem?_set_ne {l : List α} {i j : Nat} {b : α} (h : i ≠ j) :
    (l.set i b)[j]? = l[j]? := by
  rw [List.getElem?_set]
  simp [h]

/-- Claim C5: `sweepExpiredSales` sets `isDeleted = true` exactly for the
products whose `purchasedAt` is set and more than 24 hours before `now`
and that are not yet deleted, leaves every other product and every other
field (and the other tables) unchanged, and running it twice with the
same `now` gives the same final store as running it once (the second run
additionally reports no update). -/
theorem c5_sweep_spec (s : Store) (now : Int) :
    (∀ (i : Nat) (p : Product), s.products[i]? = some p →
      (cleanupPurchasedProducts s now).1.products[i]? =
        some (if expireCond now p then { p with isDeleted := true } else p)) ∧
    (cleanupPurchasedProducts s now).1.users = s.users ∧
    (cleanupPurchasedProducts s now).1.reports = s.reports ∧
    (cleanupPurchasedProducts s now).1.messages = s.messages ∧
    cleanupPurchasedProducts (cleanupPurchasedProducts s now).1 now =
      ((cleanupPurchasedProducts s now).1, false) := by
  have hfix : ∀ p : Product,
      expireCond now (if expireCond now p then { p with isDeleted := true } else p)
        = false := by
    intro p
    cases hexp : expireCond now p with
    | true =>
      simp only [if_true]
      unfold expireCond at hexp ⊢
      cases hp : p.purchasedAt with
      | none => simp
      | some t => simp
    | false => simp [hexp]
  refine ⟨?_, rfl, rfl, rfl, ?_⟩
  · intro i p hp
    unfold cleanupPurchasedProducts
    simp [List.getElem?_map, hp]
  · unfold cleanupPurchasedProducts
    simp only [List.map_map, List.any_map, Prod.mk.injEq, Store.mk.injEq]
    refine ⟨⟨trivial, ?_, trivial, trivial⟩, ?_⟩
    · apply List.map_congr_left
      intro p _
      simp only [Function.comp]
      rw [if_neg (by simp [hfix p])]
    · rw [List.any_eq_false]
      intro p _
      simp only [Function.comp]
      simp [hfix p]

/-- Witness for C5 at a concrete store: three days after its sale, the
sold sample product is flipped to deleted by the sweep. -/
theorem c5_sweep_witness :
    (cleanupPurchasedProducts baseStore (3 * dayMs)).1.products[2]? =
      some { prodSold with isDeleted := true } := by
  have h := (c5_sweep_spec baseStore (3 * dayMs)).1 2 prodSold (by decide)
  rw [h]
  decide

/-- Claim C10: banning a user from the report dashboard removes every
pending report whose `reportedUser` is the banned username (of every
type, related to the acted-on report or not) and keeps exactly the
reports against other users. -/
theorem c10_ban_clears_reports_spec (s : Store) (u : PublicUser)
    (username : String) (banDuration now : Int) (hadmin : u.isAdmin = true) :
    ∀ r : Report,
      r ∈ (handleBanUser s (some u) username banDuration now).reports ↔
        (r ∈ s.reports ∧ r.reportedUser ≠ username) := by
  intro r
  unfold handleBanUser
  simp [hadmin, List.mem_filter]

/-- Witness for C10: the admin bans carol; the unrelated product-type
report against carol is gone, the report against bob survives. -/
theorem c10_ban_clears_reports_witness :
    repBob ∈ (handleBanUser baseStore (some admPub) "carol" 7 0).reports ∧
      repCarolProd ∉ (handleBanUser baseStore (some admPub) "carol" 7 0).reports := by
  constructor
  · exact (c10_ban_clears_reports_spec baseStore admPub "carol" 7 0 (by decide)
      repBob).mpr ⟨by decide, by decide⟩
  · intro hmem
    exact ((c10_ban_clears_reports_spec baseStore admPub "carol" 7 0 (by decide)
      repCarolProd).mp hmem).2 (by decide)

/-- Claim C4: `ban(username, days, actingAdmin)` fails with Forbidden
unless the acting admin exists and has `isAdmin`, fails with OutOfRange
unless `1 ≤ days ≤ 365`, fails with NotFound when no user has the target
username, and otherwise sets the target's `canLogin` to false and
`banExpiry` to `now` plus `days` days, for every input triple. -/
theorem c4_ban_spec (users : List User) (username : String) (days : Int)
    (adminUsername : String) (now : Int) :
    (findIdxElem? (fun u => u.username == adminUsername) users = none →
      banUser users username days adminUsername now = (.error .forbidden, users)) ∧
    (∀ (i : Nat) (a : User),
      findIdxElem? (fun u => u.username == adminUsername) users = some (i, a) →
      a.isAdmin = false →
      banUser users username days adminUsername now = (.error .forbidden, users)) ∧
    (∀ (i : Nat) (a : User),
      findIdxElem? (fun u => u.username == adminUsername) users = some (i, a) →
      a.isAdmin = true → (days ≤ 0 ∨ days > 365) →
      banUser users username days adminUsername now = (.error .outOfRange, users)) ∧
    (∀ (i : Nat) (a : User),
      findIdxElem? (fun u => u.username == adminUsername) users = some (i, a) →
      a.isAdmin = true → 1 ≤ days → days ≤ 365 →
      findIdxElem? (fun u => u.username == username) users = none →
      banUser users username days adminUsername now = (.error .notFound, users)) ∧
    (∀ (i : Nat) (a : User) (j : Nat) (t : User),
      findIdxElem? (fun u => u.username == adminUsername) users = some (i, a) →
      a.isAdmin = true → 1 ≤ days → days ≤ 365 →
      findIdxElem? (fun u => u.username == username) users = some (j, t) →
      banUser users username days adminUsername now =
        (.ok { t with canLogin := false, banExpiry := some (now + days * dayMs) },
         users.set j
           { t with canLogin := false, banExpiry := some (now + days * dayMs) })) := by
  refine ⟨?_, ?_, ?_, ?_, ?_⟩
  · intro hfa
    simp [banUser, hfa]
  · intro i a hfa hna
    simp [banUser, hfa, hna]
  · intro i a hfa hia hdays
    simp only [banUser, hfa, hia, Bool.not_true, Bool.false_eq_true, if_false]
    rw [if_pos hdays]
  · intro i a hfa hia h1 h2 hft
    simp only [banUser, hfa, hia, Bool.not_true, Bool.false_eq_true, if_false]
    rw [if_neg (by omega), hft]
  · intro i a j t hfa hia h1 h2 hft
    simp only [banUser, hfa, hia, Bool.not_true, Bool.false_eq_true, if_false]
    rw [if_neg (by omega), hft]

/-- Witness for C4: the sample admin bans carol for 7 days at time 0. -/
theorem c4_ban_witness :
    banUser baseStore.users "carol" 7 "adm" 0 =
      (.ok { carol with canLogin := false, banExpiry := some (7 * dayMs) },
       baseStore.users.set 2
         { carol with canLogin := false, banExpiry := some (7 * dayMs) }) := by
  have h := (c4_ban_spec baseStore.users "carol" 7 "adm" 0).2.2.2.2
    3 admUser 2 carol (by decide) (by decide) (by decide) (by decide) (by decide)
  rw [h]
  decide

/-- Claim C3: `login` fails with InvalidCredentials when the username is
absent or the password mismatches; with a matching password and
`canLogin = false` and `banExpiry` still in the future it fails with a
Banned error carrying the computed days remaining while the table (hence
`canLogin = false`) is untouched; with `banExpiry` in the past it clears
the ban (`canLogin = true`, `banExpiry` removed) in the table before
succeeding; and every success returns the password-stripped record plus
the fresh token. -/
theorem c3_login_spec (users : List User) (username password token : String)
    (now : Int) :
    (findIdxElem? (fun u => u.username == username) users = none →
      login users username password token now = (.error .invalidCredentials, users)) ∧
    (∀ (i : Nat) (u : User),
      findIdxElem? (fun u => u.username == username) users = some (i, u) →
      u.password ≠ password →
      login users username password token now = (.error .invalidCredentials, users)) ∧
    (∀ (i : Nat) (u : User) (t : Int),
      findIdxElem? (fun u => u.username == username) users = some (i, u) →
      u.password = password → u.canLogin = false → u.banExpiry = some t →
      now < t →
      login users username password token now =
        (.error (.banned (ceilDays (t - now))), users)) ∧
    (∀ (i : Nat) (u : User) (t : Int),
      findIdxElem? (fun u => u.username == username) users = some (i, u) →
      u.password = password → u.canLogin = false → u.banExpiry = some t →
      t ≤ now →
      login users username password token now =
        (.ok (stripPassword { u with canLogin := true, banExpiry := none }, token),
         users.set i { u with canLogin := true, banExpiry := none })) ∧
    (∀ (i : Nat) (u : User),
      findIdxElem? (fun u => u.username == username) users = some (i, u) →
      u.password = password → u.canLogin = true →
      login users username password token now =
        (.ok (stripPassword u, token), users)) := by
  refine ⟨?_, ?_, ?_, ?_, ?_⟩
  · intro hf
    simp [login, hf]
  · intro i u hf hpw
    simp [login, hf, hpw]
  · intro i u t hf hpw hcl hbe hlt
    simp only [login, hf, hpw, beq_self_eq_true, Bool.not_true, Bool.false_eq_true,
      if_false, hcl, hbe]
    rw [if_pos hlt]
  · intro i u t hf hpw hcl hbe hge
    simp only [login, hf, hpw, beq_self_eq_true, Bool.not_true, Bool.false_eq_true,
      if_false, hcl, hbe]
    rw [if_neg (by omega)]
  · intro i u hf hpw hcl
    simp [login, hf, hpw, hcl]

/-- Witness for C3: carol's ban expired at `dayMs`; at time `2 * dayMs`
her login succeeds, clears the ban in the table, and returns her
password-stripped record. -/
theorem c3_login_witness :
    login baseStore.users "carol" "pw3" "tok" (2 * dayMs) =
      (.ok (stripPassword { carol with canLogin := true, banExpiry := none }, "tok"),
       baseStore.users.set 2 { carol with canLogin := true, banExpiry := none }) := by
  have h := (c3_login_spec baseStore.users "carol" "pw3" "tok" (2 * dayMs)).2.2.2.1
    2 carol dayMs (by decide) (by decide) (by decide) (by decide) (by decide)
  exact h

/-- Claim C2: `purchase` fails with NotFound when no product has the id,
with AlreadySold when `purchasedBy` is already set (to a username, which
is nonempty by the data model), and with InsufficientBalance when the
buyer's balance is below the price; in each failure case the whole store
is returned exactly as it was. -/
theorem c2_purchase_errors_spec (s : Store) (productId username : String)
    (now : Int) :
    (findIdxElem? (fun p => p.id == productId) s.products = none →
      purchaseProduct s productId username now = (.error .notFound, s)) ∧
    (∀ (i : Nat) (p : Product) (b : String),
      findIdxElem? (fun p => p.id == productId) s.products = some (i, p) →
      p.purchasedBy = some b → b ≠ "" →
      purchaseProduct s productId username now = (.error .alreadySold, s)) ∧
    (∀ (i : Nat) (p : Product) (j : Nat) (u : User),
      findIdxElem? (fun p => p.id == productId) s.products = some (i, p) →
      strTruthy p.purchasedBy = false →
      findIdxElem? (fun x => x.username == username) s.users = some (j, u) →
      u.balance < p.price →
      purchaseProduct s productId username now = (.error .insufficientBalance, s)) := by
  refine ⟨?_, ?_, ?_⟩
  · intro hf
    simp [purchaseProduct, hf]
  · intro i p b hf hpb hb
    have ht : strTruthy p.purchasedBy = true := by
      rw [hpb]
      simpa [strTruthy] using hb
    simp [purchaseProduct, hf, ht]
  · intro i p j u hf hns hfu hbal
    simp only [purchaseProduct, hf, hns, Bool.false_eq_true, if_false, hfu]
    rw [if_pos hbal]

/-- Witness for C2: buying the already-sold sample product fails with
AlreadySold and leaves the store untouched. -/
theorem c2_purchase_errors_witness :
    purchaseProduct baseStore "p3" "bob" 99 = (.error .alreadySold, baseStore) :=
  (c2_purchase_errors_spec baseStore "p3" "bob" 99).2.1 2 prodSold "alice"
    (by decide) (by decide) (by decide)

/-- Claim C8 (amended): `restoreSession` never throws - it is a total
function of the persisted value and the user table - and every failure
(missing, malformed, or the referenced user no longer existing) degrades
to no current user; but the persisted record is cleared only in the
user-no-longer-exists case, while a malformed or field-missing persisted
value is left in place. -/
theorem c8_restore_spec (users : List User) :
    (initializeAuth users .missing = (none, .missing)) ∧
    (initializeAuth users .corrupt = (none, .corrupt)) ∧
    (∀ (uid tok : Option String) (exp : Option Int),
      (strTruthy tok && strTruthy uid) = false →
      initializeAuth users (.record uid tok exp) = (none, .record uid tok exp)) ∧
    (∀ (uid : String) (tok : Option String) (exp : Option Int),
      uid ≠ "" → strTruthy tok = true →
      findIdxElem? (fun u => u.username == uid) users = none →
      initializeAuth users (.record (some uid) tok exp) = (none, .missing)) ∧
    (∀ (uid : String) (tok : Option String) (exp : Option Int) (i : Nat) (u : User),
      uid ≠ "" → strTruthy tok = true →
      findIdxElem? (fun u => u.username == uid) users = some (i, u) →
      initializeAuth users (.record (some uid) tok exp) =
        (some (stripPassword u), .record (some uid) tok exp)) := by
  refine ⟨rfl, rfl, ?_, ?_, ?_⟩
  · intro uid tok exp hfalse
    simp [initializeAuth, storageGet, hfalse]
  · intro uid tok exp huid htok hf
    have huidT : strTruthy (some uid) = true := by simpa [strTruthy] using huid
    simp [initializeAuth, storageGet, htok, huidT, getUser, hf]
  · intro uid tok exp i u huid htok hf
    have huidT : strTruthy (some uid) = true := by simpa [strTruthy] using huid
    simp [initializeAuth, storageGet, htok, huidT, getUser, hf]

/-- Counterexample for C8 as stated: an unparseable persisted value is a
failure (no current user results), yet the persisted record is NOT
cleared - it stays `corrupt` instead of being removed. -/
theorem c8_restore_counterexample :
    initializeAuth [] .corrupt = (none, .corrupt) ∧
      StoredSession.corrupt ≠ StoredSession.missing := by
  exact ⟨rfl, by decide⟩

/-- Witness for C8: a structurally valid session for a vanished user
degrades to no user and clears the persisted record. -/
theorem c8_restore_witness :
    initializeAuth [] (.record (some "ghost") (some "tok") (some 0)) =
      (none, .missing) :=
  (c8_restore_spec []).2.2.2.1 "ghost" (some "tok") (some 0)
    (by decide) (by decide) (by decide)

/-- Claim C7 (amended): reporting always appends exactly one Report row on
success, but the length rule differs by path: a user report
(`api.reportUser`) fails with TooShort unless `reason.trim().length ≥ 5`,
while a product report (`handleReport` + `api.reportProduct`) checks the
UNtrimmed `reason.length ≥ 5` (after a non-blank check) and then stores
the trimmed reason, so a product report whose trimmed reason is shorter
than 5 characters can still be appended. -/
theorem c7_report_spec (s : Store) (reason reporter newId : String) (now : Int) :
    (∀ target : String,
      (reason = "" ∨ (jsTrim reason).length < 5) →
      reportUser s target reason reporter newId now = (.error .tooShort, s)) ∧
    (∀ target : String,
      reason ≠ "" → 5 ≤ (jsTrim reason).length →
      reportUser s target reason reporter newId now =
        (.ok (), { s with reports := s.reports ++
          [{ id := newId, rType := .user, contentId := none,
             reportedUser := target, reason := reason,
             reportedBy := reporter, createdAt := now }] })) ∧
    (∀ (pid : String) (i : Nat) (product : Product),
      findIdxElem? (fun p => p.id == pid) s.products = some (i, product) →
      product.author ≠ reporter → jsTrim reason ≠ "" → reason.length < 5 →
      handleReportProduct s pid reason reporter newId now = (.error .tooShort, s)) ∧
    (∀ (pid : String) (i : Nat) (product : Product),
      findIdxElem? (fun p => p.id == pid) s.products = some (i, product) →
      product.author ≠ reporter → jsTrim reason ≠ "" → 5 ≤ reason.length →
      handleReportProduct s pid reason reporter newId now =
        (.ok (), { s with reports := s.reports ++
          [{ id := newId, rType := .product, contentId := some pid,
             reportedUser := product.author, reason := jsTrim reason,
             reportedBy := reporter, createdAt := now }] })) := by
  refine ⟨?_, ?_, ?_, ?_⟩
  · intro target hshort
    rw [reportUser, if_pos (by simpa using hshort)]
  · intro target hne hlen
    rw [reportUser, if_neg (by push_neg; exact ⟨by simpa using hne, by omega⟩)]
  · intro pid i product hf hauth htrim hlen
    simp only [handleReportProduct, hf]
    rw [if_neg (by simpa using hauth), if_neg (by simpa using htrim),
      if_pos hlen]
  · intro pid i product hf hauth htrim hlen
    simp only [handleReportProduct, hf]
    rw [if_neg (by simpa using hauth), if_neg (by simpa using htrim),
      if_neg (by omega)]
    simp only [reportProduct, hf]

/-- Counterexample for C7 as stated: the product-report path accepts the
reason `"   ab"` (untrimmed length 5) although its trimmed length is 2,
appending a report instead of failing with TooShort. -/
theorem c7_report_counterexample :
    (handleReportProduct baseStore "p1" "   ab" "alice" "r9" 0).1 = .ok () ∧
    (handleReportProduct baseStore "p1" "   ab" "alice" "r9" 0).2.reports.length =
      baseStore.reports.length + 1 ∧
    (jsTrim "   ab").length < 5 := by
  refine ⟨by decide, by decide, by decide⟩

/-- Witness for C7: a 3-character user-report reason is rejected, while a
long one is appended as exactly one new row. -/
theorem c7_report_witness :
    reportUser baseStore "bob" "bad" "alice" "r8" 0 = (.error .tooShort, baseStore) ∧
    reportUser baseStore "bob" "not as described" "alice" "r8" 0 =
      (.ok (), { baseStore with reports := baseStore.reports ++
        [{ id := "r8", rType := .user, contentId := none,
           reportedUser := "bob", reason := "not as described",
           reportedBy := "alice", createdAt := 0 }] }) := by
  constructor
  · exact (c7_report_spec baseStore "bad" "alice" "r8" 0).1 "bob" (by decide)
  · exact (c7_report_spec baseStore "not as described" "alice" "r8" 0).2.1 "bob"
      (by decide) (by decide)

theorem getElem?_set_self :
    ∀ {l : List α} {i : Nat} {a : α} (b : α),
      l[i]? = some a → (l.set i b)[i]? = some b
  | [], _, _, _, h => by simp at h
  | c :: cs, 0, a, b, h => by simp
  | c :: cs, i + 1, a, b, h => by
    simp only [List.getElem?_cons_succ] at h
    simpa [List.set] using getElem?_set_self b h

theorem findIdxElem?_set_hit {p : α → Bool} {l : List α} {i : Nat} {a : α} (b : α)
    (ha : l[i]? = some a) (hpb : p b = p a)
    (hfind : findIdxElem? p l = some (i, a)) :
    findIdxElem? p (l.set i b) = some (i, b) := by
  rw [findIdxElem?_set b ha hpb, hfind]
  simp

theorem findIdxElem?_set_miss {p : α → Bool} {l : List α} {i : Nat} {a : α} (b : α)
    {j : Nat} {c : α}
    (ha : l[i]? = some a) (hpb : p b = p a)
    (hfind : findIdxElem? p l = some (j, c)) (hji : j ≠ i) :
    findIdxElem? p (l.set i b) = some (j, c) := by
  rw [findIdxElem?_set b ha hpb, hfind]
  simp [hji]

theorem findIdxElem?_set_none {p : α → Bool} {l : List α} {i : Nat} {a : α} (b : α)
    (ha : l[i]? = some a) (hpb : p b = p a)
    (hfind : findIdxElem? p l = none) :
    findIdxElem? p (l.set i b) = none := by
  rw [findIdxElem?_set b ha hpb, hfind]
  rfl

theorem purchaseUsers_no_seller (users : List User) (bIdx : Nat) (buyer : User)
    (price : Int) (author : String)
    (hb : users[bIdx]? = some buyer)
    (hnone : findIdxElem? (fun u => u.username == author) users = none) :
    purchaseUsers users bIdx buyer price author =
      users.set bIdx { buyer with balance := buyer.balance - price } := by
  simp only [purchaseUsers]
  rw [findIdxElem?_set_none { buyer with balance := buyer.balance - price } hb rfl hnone]

theorem purchaseUsers_other_seller (users : List User) (bIdx : Nat) (buyer : User)
    (price : Int) (author : String) (sIdx : Nat) (seller : User)
    (hb : users[bIdx]? = some buyer)
    (hsome : findIdxElem? (fun u => u.username == author) users = some (sIdx, seller))
    (hne : sIdx ≠ bIdx) :
    purchaseUsers users bIdx buyer price author =
      (users.set bIdx { buyer with balance := buyer.balance - price }).set sIdx
        { seller with balance := seller.balance + price } := by
  simp only [purchaseUsers]
  rw [findIdxElem?_set_miss { buyer with balance := buyer.balance - price } hb rfl hsome hne]

theorem purchaseUsers_self (users : List User) (bIdx : Nat) (buyer : User)
    (price : Int) (author : String)
    (hb : users[bIdx]? = some buyer)
    (hsome : findIdxElem? (fun u => u.username == author) users = some (bIdx, buyer)) :
    purchaseUsers users bIdx buyer price author = users := by
  simp only [purchaseUsers]
  rw [findIdxElem?_set_hit { buyer with balance := buyer.balance - price } hb rfl hsome]
  show (users.set bIdx { buyer with balance := buyer.balance - price }).set bIdx
      { buyer with balance := buyer.balance - price + price } = users
  rw [List.set_set]
  rw [show ({ buyer with balance := buyer.balance - price + price } : User) = buyer by
    cases buyer; simp]
  exact set_self_eq hb

theorem purchasedBalance_eq {users2 : List User} {bIdx : Nat} {b : User}
    (h : users2[bIdx]? = some b) : purchasedBalance users2 bIdx = b.balance := by
  simp [purchasedBalance, h]

theorem purchaseProduct_success_eq (s : Store) (productId username : String)
    (now : Int) {pIdx : Nat} {product : Product} {bIdx : Nat} {buyer : User}
    (hfp : findIdxElem? (fun p => p.id == productId) s.products = some (pIdx, product))
    (hnt : strTruthy product.purchasedBy = false)
    (hfb : findIdxElem? (fun u => u.username == username) s.users = some (bIdx, buyer))
    (hnlt : ¬ (buyer.balance < product.price)) :
    purchaseProduct s productId username now =
      (.ok ({ product with purchasedBy := some username, purchasedAt := some now },
            purchasedBalance (purchaseUsers s.users bIdx buyer product.price product.author) bIdx),
       { s with users := purchaseUsers s.users bIdx buyer product.price product.author,
                products := s.products.set pIdx
                  { product with purchasedBy := some username, purchasedAt := some now } }) := by
  simp only [purchaseProduct, hfp, hnt, Bool.false_eq_true, if_false, hfb]
  rw [if_neg hnlt]

/-- Claim C1 (amended): for a product with `purchasedBy` unset and a buyer
with balance at least the price, when the buyer is NOT the product's
author, a successful purchase debits the buyer's stored balance by
exactly the price, credits the stored balance of the (first) user named
by the product's `author` by exactly the price - silently skipping the
credit while still debiting the buyer when no such user exists - stamps
`purchasedBy`/`purchasedAt` on the product, and returns the updated
product with the buyer's new balance.  (When the buyer IS the author the
two writes hit the same row and the stored balance is unchanged, so the
original universally quantified claim fails; see the counterexample.) -/
theorem c1_purchase_success_spec (s : Store) (productId username : String)
    (now : Int) (pIdx : Nat) (product : Product) (bIdx : Nat) (buyer : User)
    (hfp : findIdxElem? (fun p => p.id == productId) s.products = some (pIdx, product))
    (hnp : product.purchasedBy = none)
    (hfb : findIdxElem? (fun u => u.username == username) s.users = some (bIdx, buyer))
    (hbal : product.price ≤ buyer.balance)
    (hne : username ≠ product.author) :
    (purchaseProduct s productId username now).1 =
      .ok ({ product with purchasedBy := some username, purchasedAt := some now },
           buyer.balance - product.price) ∧
    (purchaseProduct s productId username now).2.products =
      s.products.set pIdx
        { product with purchasedBy := some username, purchasedAt := some now } ∧
    balanceOf (purchaseProduct s productId username now).2.users username =
      some (buyer.balance - product.price) ∧
    (∀ (sIdx : Nat) (seller : User),
      findIdxElem? (fun u => u.username == product.author) s.users = some (sIdx, seller) →
      balanceOf (purchaseProduct s productId username now).2.users product.author =
        some (seller.balance + product.price)) ∧
    (findIdxElem? (fun u => u.username == product.author) s.users = none →
      (purchaseProduct s productId username now).2.users =
        s.users.set bIdx { buyer with balance := buyer.balance - product.price }) := by
  obtain ⟨hbmem, hbeq⟩ := findIdxElem?_some hfb
  have hbuname : buyer.username = username := by simpa using hbeq
  have hnt : strTruthy product.purchasedBy = false := by rw [hnp]; rfl
  have hnlt : ¬ (buyer.balance < product.price) := not_lt.mpr hbal
  have hmain := purchaseProduct_success_eq s productId username now hfp hnt hfb hnlt
  cases hfsell : findIdxElem? (fun u => u.username == product.author) s.users with
  | none =>
    have husers : purchaseUsers s.users bIdx buyer product.price product.author =
        s.users.set bIdx { buyer with balance := buyer.balance - product.price } :=
      purchaseUsers_no_seller s.users bIdx buyer product.price product.author hbmem hfsell
    have hbb : (s.users.set bIdx
          { buyer with balance := buyer.balance - product.price })[bIdx]? =
        some { buyer with balance := buyer.balance - product.price } :=
      getElem?_set_self _ hbmem
    refine ⟨?_, ?_, ?_, ?_, ?_⟩
    · rw [hmain]
      show Except.ok (_, purchasedBalance (purchaseUsers s.users bIdx buyer
        product.price product.author) bIdx) = _
      rw [husers, purchasedBalance_eq hbb]
    · rw [hmain]
    · rw [hmain]
      show balanceOf (purchaseUsers s.users bIdx buyer product.price product.author)
        username = _
      rw [husers]
      unfold balanceOf
      rw [findIdxElem?_set_hit { buyer with balance := buyer.balance - product.price }
        hbmem (by rw [show ({ buyer with balance := buyer.balance - product.price } :
          User).username = buyer.username from rfl]) hfb]
      rfl
    · intro sIdx seller hsome
      exact absurd hsome (by simp)
    · intro _
      rw [hmain]
      show purchaseUsers s.users bIdx buyer product.price product.author = _
      exact husers
  | some js =>
    obtain ⟨sIdx, seller⟩ := js
    obtain ⟨hsmem, hseq⟩ := findIdxElem?_some hfsell
    have hsuname : seller.username = product.author := by simpa using hseq
    have hsne : sIdx ≠ bIdx := by
      intro hcon
      subst hcon
      rw [hbmem] at hsmem
      have hbs : buyer = seller := by
        injection hsmem
      rw [← hbs] at hsuname
      exact hne (hbuname ▸ hsuname)
    have husers : purchaseUsers s.users bIdx buyer product.price product.author =
        (s.users.set bIdx { buyer with balance := buyer.balance - product.price }).set
          sIdx { seller with balance := seller.balance + product.price } :=
      purchaseUsers_other_seller s.users bIdx buyer product.price product.author
        sIdx seller hbmem hfsell hsne
    have h1mem : (s.users.set bIdx
          { buyer with balance := buyer.balance - product.price })[sIdx]? = some seller := by
      rw [getElem?_set_ne (show bIdx ≠ sIdx from fun h => hsne h.symm)]
      exact hsmem
    have hbb : ((s.users.set bIdx
          { buyer with balance := buyer.balance - product.price }).set sIdx
          { seller with balance := seller.balance + product.price })[bIdx]? =
        some { buyer with balance := buyer.balance - product.price } := by
      rw [getElem?_set_ne hsne]
      exact getElem?_set_self _ hbmem
    have hfind1b : findIdxElem? (fun u => u.username == username)
        (s.users.set bIdx { buyer with balance := buyer.balance - product.price }) =
        some (bIdx, { buyer with balance := buyer.balance - product.price }) :=
      findIdxElem?_set_hit _ hbmem rfl hfb
    have hfindb2 : findIdxElem? (fun u => u.username == username)
        ((s.users.set bIdx { buyer with balance := buyer.balance - product.price }).set
          sIdx { seller with balance := seller.balance + product.price }) =
        some (bIdx, { buyer with balance := buyer.balance - product.price }) :=
      findIdxElem?_set_miss _ h1mem rfl hfind1b (fun h => hsne h.symm)
    have hfind1a : findIdxElem? (fun u => u.username == product.author)
        (s.users.set bIdx { buyer with balance := buyer.balance - product.price }) =
        some (sIdx, seller) :=
      findIdxElem?_set_miss _ hbmem rfl hfsell hsne
    have hfinda2 : findIdxElem? (fun u => u.username == product.author)
        ((s.users.set bIdx { buyer with balance := buyer.balance - product.price }).set
          sIdx { seller with balance := seller.balance + product.price }) =
        some (sIdx, { seller with balance := seller.balance + product.price }) :=
      findIdxElem?_set_hit _ h1mem rfl hfind1a
    refine ⟨?_, ?_, ?_, ?_, ?_⟩
    · rw [hmain]
      show Except.ok (_, purchasedBalance (purchaseUsers s.users bIdx buyer
        product.price product.author) bIdx) = _
      rw [husers, purchasedBalance_eq hbb]
    · rw [hmain]
    · rw [hmain]
      show balanceOf (purchaseUsers s.users bIdx buyer product.price product.author)
        username = _
      rw [husers]
      unfold balanceOf
      rw [hfindb2]
      rfl
    · intro sIdx' seller' hsome'
      have h1 : sIdx = sIdx' ∧ seller = seller' := by
        have := Option.some.inj hsome'
        exact ⟨congrArg Prod.fst this, congrArg Prod.snd this⟩
      obtain ⟨hs1, hs2⟩ := h1
      subst hs1
      subst hs2
      rw [hmain]
      show balanceOf (purchaseUsers s.users bIdx buyer product.price product.author)
        product.author = _
      rw [husers]
      unfold balanceOf
      rw [hfinda2]
      rfl
    · intro hnone
      exact absurd hnone (by simp)

/-- Counterexample for C1 as stated: alice buys her own listing (price
100); the purchase succeeds but her stored balance is returned and stored
unchanged (5000000), not decreased by the price, because the debit and
the self-credit hit the same row. -/
theorem c1_purchase_counterexample :
    (purchaseProduct baseStore "p2" "alice" 50).1 =
      .ok ({ prodSelf with purchasedBy := some "alice", purchasedAt := some 50 },
           5000000) ∧
    balanceOf (purchaseProduct baseStore "p2" "alice" 50).2.users "alice" =
      some 5000000 ∧
    (5000000 : Int) ≠ 5000000 - 100 := by
  refine ⟨by decide, by decide, by decide⟩

/-- Witness for C1 (amended): alice buys bob's product for 100000; she is
debited to 4900000, bob is credited to 100000, and the result carries the
stamped product and her new balance. -/
theorem c1_purchase_witness :
    (purchaseProduct baseStore "p1" "alice" 10).1 =
      .ok ({ prodA with purchasedBy := some "alice", purchasedAt := some 10 },
           4900000) ∧
    balanceOf (purchaseProduct baseStore "p1" "alice" 10).2.users "alice" =
      some 4900000 ∧
    balanceOf (purchaseProduct baseStore "p1" "alice" 10).2.users prodA.author =
      some 100000 := by
  have h := c1_purchase_success_spec baseStore "p1" "alice" 10 0 prodA 0 alice
    (by decide) (by decide) (by decide) (by decide) (by decide)
  refine ⟨?_, ?_, ?_⟩
  · rw [h.1]; decide
  · rw [h.2.2.1]; decide
  · rw [h.2.2.2.1 1 bob (by decide)]; decide

/-- Claim C9: purchase puts no restriction on the buyer being the seller:
when the product's author exists (as the first user with that name) with
balance at least the price and the product is unsold, a self-purchase
succeeds, stamps the product as purchased by its own author, and leaves
the user table - in particular the author's stored balance - exactly
unchanged, the debit and self-credit cancelling; the returned balance is
the author's original balance. -/
theorem c9_self_purchase_spec (s : Store) (productId : String) (now : Int)
    (pIdx : Nat) (product : Product) (bIdx : Nat) (buyer : User)
    (hfp : findIdxElem? (fun p => p.id == productId) s.products = some (pIdx, product))
    (hnp : product.purchasedBy = none)
    (hfb : findIdxElem? (fun u => u.username == product.author) s.users = some (bIdx, buyer))
    (hbal : product.price ≤ buyer.balance) :
    (purchaseProduct s productId product.author now).1 =
      .ok ({ product with purchasedBy := some product.author, purchasedAt := some now },
           buyer.balance) ∧
    (purchaseProduct s productId product.author now).2.users = s.users ∧
    (purchaseProduct s productId product.author now).2.products =
      s.products.set pIdx
        { product with purchasedBy := some product.author, purchasedAt := some now } ∧
    balanceOf (purchaseProduct s productId product.author now).2.users product.author =
      balanceOf s.users product.author := by
  obtain ⟨hbmem, hbeq⟩ := findIdxElem?_some hfb
  have hnt : strTruthy product.purchasedBy = false := by rw [hnp]; rfl
  have hnlt : ¬ (buyer.balance < product.price) := not_lt.mpr hbal
  have hmain := purchaseProduct_success_eq s productId product.author now hfp hnt hfb hnlt
  have husers : purchaseUsers s.users bIdx buyer product.price product.author = s.users :=
    purchaseUsers_self s.users bIdx buyer product.price product.author hbmem hfb
  refine ⟨?_, ?_, ?_, ?_⟩
  · rw [hmain]
    show Except.ok (_, purchasedBalance (purchaseUsers s.users bIdx buyer
      product.price product.author) bIdx) = _
    rw [husers, purchasedBalance_eq hbmem]
  · rw [hmain]
    show purchaseUsers s.users bIdx buyer product.price product.author = _
    exact husers
  · rw [hmain]
  · rw [hmain]
    show balanceOf (purchaseUsers s.users bIdx buyer product.price product.author)
      product.author = _
    rw [husers]

/-- Witness for C9: alice self-purchases her own listing; her stored
balance stays 5000000 and the product is marked as bought by her. -/
theorem c9_self_purchase_witness :
    (purchaseProduct baseStore "p2" "alice" 50).2.users = baseStore.users ∧
    (purchaseProduct baseStore "p2" "alice" 50).2.products =
      baseStore.products.set 1
        { prodSelf with purchasedBy := some "alice", purchasedAt := some 50 } := by
  have h := c9_self_purchase_spec baseStore "p2" 50 1 prodSelf 0 alice
    (by decide) (by decide) (by decide) (by decide)
  refine ⟨h.2.1, ?_⟩
  have h3 := h.2.2.1
  rw [show prodSelf.author = "alice" from rfl] at h3
  rw [h3]
  decide

theorem expireCond_of_deleted (now : Int) (p : Product) (h : p.isDeleted = true) :
    expireCond now p = false := by
  unfold expireCond
  cases hp : p.purchasedAt <;> simp [h]

theorem deletedOf_set {products : List Product} {i : Nat} {a : Product} (b : Product)
    (ha : products[i]? = some a) (hid : b.id = a.id)
    (hdel : a.isDeleted = true → b.isDeleted = true) (pid : String)
    (h : deletedOf products pid = some true) :
    deletedOf (products.set i b) pid = some true := by
  unfold deletedOf at h ⊢
  cases hf : findIdxElem? (fun p => p.id == pid) products with
  | none => rw [hf] at h; simp at h
  | some ja =>
    obtain ⟨j, q⟩ := ja
    rw [hf] at h
    simp only [Option.map_some', Option.some.injEq] at h
    rw [findIdxElem?_set b ha (by rw [hid]), hf]
    simp only [Option.map_some', Option.some.injEq]
    by_cases hji : j = i
    · subst hji
      have hmem := (findIdxElem?_some hf).1
      rw [ha] at hmem
      have haq : a = q := by injection hmem
      simp [hdel (haq ▸ h)]
    · simp [hji, h]

theorem deletedOf_append (products l' : List Product) (pid : String)
    (h : deletedOf products pid = some true) :
    deletedOf (products ++ l') pid = some true := by
  unfold deletedOf at h ⊢
  cases hf : findIdxElem? (fun p => p.id == pid) products with
  | none => rw [hf] at h; simp at h
  | some ja =>
    rw [findIdxElem?_append_left l' hf]
    rw [hf] at h
    exact h

theorem deletedOf_sweep (products : List Product) (now : Int) (pid : String)
    (h : deletedOf products pid = some true) :
    deletedOf (products.map
      (fun p => if expireCond now p then { p with isDeleted := true } else p)) pid =
      some true := by
  unfold deletedOf at h ⊢
  rw [findIdxElem?_map (fun x => by
    by_cases hx : expireCond now x = true <;> simp [hx])]
  cases hf : findIdxElem? (fun p => p.id == pid) products with
  | none => rw [hf] at h; simp at h
  | some ja =>
    rw [hf] at h
    simp only [Option.map_some', Option.some.injEq] at h ⊢
    rw [if_neg (by simp [expireCond_of_deleted now ja.2 h])]
    exact h

/-- Claim C6: the `isDeleted` flag of any product (looked up by id) is
monotonic across every exposed operation - createListing, updateListing
(with the four-field patch `handleUpdate` sends), softDeleteListing,
purchase, sweepExpiredSales, and admin content deletion: once true it
never becomes false; and a second `softDeleteListing` after a successful
one returns the same result and leaves the store exactly as the first
call left it. -/
theorem c6_isDeleted_monotone_spec (s : Store) (pid : String) :
    (∀ (d : ProductData) (nid : String) (now : Int),
      deletedOf s.products pid = some true →
      deletedOf (createProduct s d nid now).2.products pid = some true) ∧
    (∀ (productId : String) (patch : ProductPatch) (uname : String),
      deletedOf s.products pid = some true →
      deletedOf (updateProduct s productId patch uname).2.products pid = some true) ∧
    (∀ (productId uname : String),
      deletedOf s.products pid = some true →
      deletedOf (deleteProduct s productId uname).2.products pid = some true) ∧
    (∀ (productId uname : String) (now : Int),
      deletedOf s.products pid = some true →
      deletedOf (purchaseProduct s productId uname now).2.products pid = some true) ∧
    (∀ now : Int,
      deletedOf s.products pid = some true →
      deletedOf (cleanupPurchasedProducts s now).1.products pid = some true) ∧
    (∀ (actor : Option PublicUser) (report : Report),
      deletedOf s.products pid = some true →
      deletedOf (handleDeleteContent s actor report).products pid = some true) ∧
    (∀ (productId uname : String) (r : Product) (s₁ : Store),
      deleteProduct s productId uname = (.ok r, s₁) →
      deleteProduct s₁ productId uname = (.ok r, s₁) ∧ r.isDeleted = true) := by
  refine ⟨?_, ?_, ?_, ?_, ?_, ?_, ?_⟩
  · intro d nid now h
    exact deletedOf_append s.products _ pid h
  · intro productId patch uname h
    simp only [updateProduct]
    split
    · exact h
    · rename_i i product heq
      split
      · exact h
      · exact deletedOf_set (applyPatch product patch)
          (findIdxElem?_some heq).1 rfl (fun hh => hh) pid h
  · intro productId uname h
    simp only [deleteProduct]
    split
    · exact h
    · rename_i i product heq
      split
      · exact h
      · exact deletedOf_set { product with isDeleted := true }
          (findIdxElem?_some heq).1 rfl (fun _ => rfl) pid h
  · intro productId uname now h
    simp only [purchaseProduct]
    split
    · exact h
    · rename_i i product heq
      split
      · exact h
      · split
        · exact h
        · rename_i bi buyer hbeq
          split
          · exact h
          · exact deletedOf_set
              { product with purchasedBy := some uname, purchasedAt := some now }
              (findIdxElem?_some heq).1 rfl (fun hh => hh) pid h
  · intro now h
    simp only [cleanupPurchasedProducts]
    exact deletedOf_sweep s.products now pid h
  · intro actor report h
    simp only [handleDeleteContent]
    split
    · exact h
    · rename_i u
      split
      · split
        · split
          · rename_i cid hcid
            split
            · exact h
            · exact h
          · exact h
        · split
          · rename_i cid hcid
            split
            · rename_i i product heq
              exact deletedOf_set { product with isDeleted := true }
                (findIdxElem?_some heq).1 rfl (fun _ => rfl) pid h
            · exact h
          · exact h
        · exact h
      · exact h
  · intro productId uname r s₁ hyp
    simp only [deleteProduct] at hyp
    split at hyp
    · exact absurd (congrArg Prod.fst hyp) (by simp)
    · rename_i i product heq
      split at hyp
      · exact absurd (congrArg Prod.fst hyp) (by simp)
      · rename_i hauth
        have hr : ({ product with isDeleted := true } : Product) = r :=
          by injection congrArg Prod.fst hyp
        have hs : ({ s with products :=
            (s.products.set i { product with isDeleted := true }) } : Store) = s₁ :=
          congrArg Prod.snd hyp
        subst hr
        subst hs
        refine ⟨?_, rfl⟩
        have hmem := (findIdxElem?_some heq).1
        simp only [deleteProduct]
        rw [findIdxElem?_set_hit { product with isDeleted := true } hmem rfl heq]
        dsimp only
        rw [if_neg hauth]
        rw [List.set_set]

/-- Witness for C6 (the second-soft-delete no-op conjunct): after bob
soft-deletes his listing, repeating the call returns the same result and
leaves the store exactly as it was. -/
theorem c6_isDeleted_monotone_witness :
    deleteProduct ({ baseStore with products :=
        (baseStore.products.set 0 { prodA with isDeleted := true }) }) "p1" "bob" =
      (.ok { prodA with isDeleted := true },
       { baseStore with products :=
         (baseStore.products.set 0 { prodA with isDeleted := true }) }) := by
  have h := (c6_isDeleted_monotone_spec baseStore "p1").2.2.2.2.2.2 "p1" "bob"
    { prodA with isDeleted := true }
    ({ baseStore with products :=
      (baseStore.products.set 0 { prodA with isDeleted := true }) })
    (by decide)
  exact h.1
